import Mathlib

/-!
Shallow embedding of the linear-algebra module `src/gl-test/src/math.rs`
(types `Vec3`, `Vec4`, `Mat4` and their operations) over the real numbers,
together with theorems settling the specification claims about it.

Vectors are fixed-length column vectors modelled as functions from `Fin n`
to `ℝ`; the 4×4 matrix is column-major, modelled as a function from the
column index and the row index to `ℝ`, matching the source layout
`matrix[col][row]`.  The accumulation loops of the source are unrolled:
`dot` is literally `(((0 + a0*b0) + a1*b1) + a2*b2)`, the order the Rust
loops produce.  Array literals of the source become the `mk` constructors
below.
-/

noncomputable section

/-- The constant `TAU` from the source: two pi. -/
def TAU : ℝ := 2 * Real.pi

/-- A column vector with three components, `Vec3(pub [f32; 3])` in the source. -/
abbrev Vec3 := Fin 3 → ℝ

/-- A column vector with four components, `Vec4(pub [f32; 4])` in the source. -/
abbrev Vec4 := Fin 4 → ℝ

/-- The literal `Vec3([a0, a1, a2])` of the source. -/
def Vec3.mk (a0 a1 a2 : ℝ) : Vec3 := fun i =>
  match i with
  | ⟨0, _⟩ => a0
  | ⟨1, _⟩ => a1
  | ⟨2, _⟩ => a2

/-- The literal `Vec4([a0, a1, a2, a3])` of the source. -/
def Vec4.mk (a0 a1 a2 a3 : ℝ) : Vec4 := fun i =>
  match i with
  | ⟨0, _⟩ => a0
  | ⟨1, _⟩ => a1
  | ⟨2, _⟩ => a2
  | ⟨3, _⟩ => a3

@[simp] theorem Vec3.mk3_app0 (a0 a1 a2 : ℝ) : Vec3.mk a0 a1 a2 0 = a0 := rfl

@[simp] theorem Vec3.mk3_app1 (a0 a1 a2 : ℝ) : Vec3.mk a0 a1 a2 1 = a1 := rfl

@[simp] theorem Vec3.mk3_app2 (a0 a1 a2 : ℝ) : Vec3.mk a0 a1 a2 2 = a2 := rfl

@[simp] theorem Vec4.mk4_app0 (a0 a1 a2 a3 : ℝ) : Vec4.mk a0 a1 a2 a3 0 = a0 := rfl

@[simp] theorem Vec4.mk4_app1 (a0 a1 a2 a3 : ℝ) : Vec4.mk a0 a1 a2 a3 1 = a1 := rfl

@[simp] theorem Vec4.mk4_app2 (a0 a1 a2 a3 : ℝ) : Vec4.mk a0 a1 a2 a3 2 = a2 := rfl

@[simp] theorem Vec4.mk4_app3 (a0 a1 a2 a3 : ℝ) : Vec4.mk a0 a1 a2 a3 3 = a3 := rfl

namespace Vec3

/-- Create a vector with all fields set to zero. -/
def zero : Vec3 := Vec3.mk 0 0 0

/-- The vector dot product: the accumulation loop of the source, unrolled. -/
def dot (a b : Vec3) : ℝ := 0 + a 0 * b 0 + a 1 * b 1 + a 2 * b 2

/-- The square of the length of the vector: `self.dot(self)`. -/
def length_squared (v : Vec3) : ℝ := dot v v

/-- The length of the vector: `self.length_squared().sqrt()`. -/
def length (v : Vec3) : ℝ := Real.sqrt (length_squared v)

/-- Normalize: divide every component by the length computed up front. -/
def normalize (v : Vec3) : Vec3 :=
Vec3.mk (v 0 / length v) (v 1 / length v) (v 2 / length v)

/-- Component-wise addition. -/
def add (a b : Vec3) : Vec3 := Vec3.mk (a 0 + b 0) (a 1 + b 1) (a 2 + b 2)

/-- Component-wise subtraction. -/
def sub (a b : Vec3) : Vec3 := Vec3.mk (a 0 - b 0) (a 1 - b 1) (a 2 - b 2)

/-- The vector cross product, exactly as in the source. -/
def cross (a b : Vec3) : Vec3 :=
Vec3.mk (a 1 * b 2 - a 2 * b 1) (a 2 * b 0 - a 0 * b 2) (a 0 * b 1 - a 1 * b 0)

end Vec3

namespace Vec4

/-- Create a vector with all fields set to zero. -/
def zero : Vec4 := Vec4.mk 0 0 0 0

/-- The vector dot product: the accumulation loop of the source, unrolled. -/
def dot (a b : Vec4) : ℝ := 0 + a 0 * b 0 + a 1 * b 1 + a 2 * b 2 + a 3 * b 3

/-- The square of the length of the vector: `self.dot(self)`. -/
def length_squared (v : Vec4) : ℝ := dot v v

/-- The length of the vector: `self.length_squared().sqrt()`. -/
def length (v : Vec4) : ℝ := Real.sqrt (length_squared v)

/-- Normalize: divide every component by the length computed up front. -/
def normalize (v : Vec4) : Vec4 :=
Vec4.mk (v 0 / length v) (v 1 / length v) (v 2 / length v) (v 3 / length v)

/-- Component-wise addition. -/
def add (a b : Vec4) : Vec4 :=
Vec4.mk (a 0 + b 0) (a 1 + b 1) (a 2 + b 2) (a 3 + b 3)

/-- Component-wise subtraction. -/
def sub (a b : Vec4) : Vec4 :=
Vec4.mk (a 0 - b 0) (a 1 - b 1) (a 2 - b 2) (a 3 - b 3)

end Vec4

/-- A 4×4 matrix stored in column-major order: `m c r` is `matrix[col][row]`. -/
abbrev Mat4 := Fin 4 → Fin 4 → ℝ

/-- The literal `Mat4([c0, c1, c2, c3])` of the source: four columns. -/
def Mat4.mk (c0 c1 c2 c3 : Vec4) : Mat4 := fun c =>
  match c with
  | ⟨0, _⟩ => c0
  | ⟨1, _⟩ => c1
  | ⟨2, _⟩ => c2
  | ⟨3, _⟩ => c3

@[simp] theorem Mat4.mkm_app0 (c0 c1 c2 c3 : Vec4) : Mat4.mk c0 c1 c2 c3 0 = c0 := rfl

@[simp] theorem Mat4.mkm_app1 (c0 c1 c2 c3 : Vec4) : Mat4.mk c0 c1 c2 c3 1 = c1 := rfl

@[simp] theorem Mat4.mkm_app2 (c0 c1 c2 c3 : Vec4) : Mat4.mk c0 c1 c2 c3 2 = c2 := rfl

@[simp] theorem Mat4.mkm_app3 (c0 c1 c2 c3 : Vec4) : Mat4.mk c0 c1 c2 c3 3 = c3 := rfl

namespace Mat4

/-- The zero matrix. -/
def zero : Mat4 :=
Mat4.mk (Vec4.mk 0 0 0 0) (Vec4.mk 0 0 0 0) (Vec4.mk 0 0 0 0) (Vec4.mk 0 0 0 0)

/-- The identity matrix. -/
def identity : Mat4 :=
Mat4.mk (Vec4.mk 1 0 0 0) (Vec4.mk 0 1 0 0) (Vec4.mk 0 0 1 0) (Vec4.mk 0 0 0 1)

/-- Scaling by the given factors. -/
def scale (x y z : ℝ) : Mat4 :=
Mat4.mk (Vec4.mk x 0 0 0) (Vec4.mk 0 y 0 0) (Vec4.mk 0 0 z 0) (Vec4.mk 0 0 0 1)

/-- Translation: identity with the offset in the fourth column. -/
def translate (x y z : ℝ) : Mat4 :=
Mat4.mk (Vec4.mk 1 0 0 0) (Vec4.mk 0 1 0 0) (Vec4.mk 0 0 1 0) (Vec4.mk x y z 1)

/-- Rotation around the X-axis, the array literal transcribed verbatim
(outer arrays are columns). -/
def rotate_x (angle : ℝ) : Mat4 :=
Mat4.mk (Vec4.mk 1 0 0 0)
  (Vec4.mk 0 (Real.cos angle) (-Real.sin angle) 0)
  (Vec4.mk 0 (Real.sin angle) (Real.cos angle) 0)
  (Vec4.mk 0 0 0 1)

/-- Rotation around the Y-axis, the array literal transcribed verbatim
(outer arrays are columns). -/
def rotate_y (angle : ℝ) : Mat4 :=
Mat4.mk (Vec4.mk (Real.cos angle) 0 (Real.sin angle) 0)
  (Vec4.mk 0 1 0 0)
  (Vec4.mk (-Real.sin angle) 0 (Real.cos angle) 0)
  (Vec4.mk 0 0 0 1)

/-- Rotation around the Z-axis, the array literal transcribed verbatim
(outer arrays are columns). -/
def rotate_z (angle : ℝ) : Mat4 :=
Mat4.mk (Vec4.mk (Real.cos angle) (-Real.sin angle) 0 0)
  (Vec4.mk (Real.sin angle) (Real.cos angle) 0 0)
  (Vec4.mk 0 0 1 0)
  (Vec4.mk 0 0 0 1)

/-- The camera view matrix, following the source statement by statement:
`z` is the normalized depth axis, `x` starts as `up × z`, `y` is recomputed
as `z × x` before `x` is normalized, and finally both are normalized. -/
def look_at (eye center up : Vec3) : Mat4 :=
  let z := Vec3.normalize (Vec3.sub eye center)
  let x0 := Vec3.cross up z
  let y0 := Vec3.cross z x0
  let x := Vec3.normalize x0
  let y := Vec3.normalize y0
  Mat4.mk (Vec4.mk (x 0) (y 0) (z 0) 0)
    (Vec4.mk (x 1) (y 1) (z 1) 0)
    (Vec4.mk (x 2) (y 2) (z 2) 0)
    (Vec4.mk (-(Vec3.dot x eye)) (-(Vec3.dot y eye)) (-(Vec3.dot z eye)) 1)

open Classical in
/-- The perspective projection matrix.  The two asserts of the source abort
the program; this is modelled by returning `none` exactly when an assert
fires.  Otherwise the result is the zero matrix with the five assigned
entries, `result[col][row]` written as column/row here. -/
def perspective (fov_y aspect z_near z_far : ℝ) : Option Mat4 :=
  if aspect = 0 ∨ z_near = z_far then none
  else
    let f := 1 / Real.tan (fov_y / 2)
    let z_diff := z_near - z_far
    some (Mat4.mk (Vec4.mk (f / aspect) 0 0 0)
      (Vec4.mk 0 f 0 0)
      (Vec4.mk 0 0 ((z_near + z_far) / z_diff) (-1))
      (Vec4.mk 0 0 (2 * z_near * z_far / z_diff) 0))

/-- Matrix-matrix product: `result[col][row] += self[i][row] * other[col][i]`,
accumulated in loop order from zero. -/
def mul (a b : Mat4) : Mat4 := fun col row =>
  0 + a 0 row * b col 0 + a 1 row * b col 1 + a 2 row * b col 2 + a 3 row * b col 3

/-- Matrix-vector product: `result[row] += self[col][row] * vec[col]`,
accumulated in loop order from zero. -/
def mulVec (m : Mat4) (v : Vec4) : Vec4 := fun row =>
  0 + m 0 row * v 0 + m 1 row * v 1 + m 2 row * v 2 + m 3 row * v 3

end Mat4

/- ### Basic helper lemmas -/

/-- Two `Vec3` values are equal when all three components agree. -/
theorem Vec3.ext3_comp {a b : Vec3} (h0 : a 0 = b 0) (h1 : a 1 = b 1)
    (h2 : a 2 = b 2) : a = b := by
  funext i
  fin_cases i <;> assumption

/-- Two `Vec4` values are equal when all four components agree. -/
theorem Vec4.ext4_comp {a b : Vec4} (h0 : a 0 = b 0) (h1 : a 1 = b 1)
    (h2 : a 2 = b 2) (h3 : a 3 = b 3) : a = b := by
  funext i
  fin_cases i <;> assumption

/-- Two matrices are equal when the four columns agree. -/
theorem Mat4.ext_col {a b : Mat4} (h0 : a 0 = b 0) (h1 : a 1 = b 1)
    (h2 : a 2 = b 2) (h3 : a 3 = b 3) : a = b := by
  funext c
  fin_cases c <;> assumption

/- ### C7: cross product anti-commutativity -/

/-- C7: for all `Vec3` values `a` and `b`, each component of `cross a b` is
the negation of the corresponding component of `cross b a`. -/
theorem C7_cross_anticomm (a b : Vec3) :
    Vec3.cross a b = fun i => -(Vec3.cross b a i) := by
  refine Vec3.ext3_comp ?_ ?_ ?_ <;> simp [Vec3.cross] <;> ring

/- ### C8: length, length_squared and dot -/

/-- C8: for every vector (both sizes), `length_squared` is the self dot
product, `length` is the square root of `length_squared`, and `length` is
non-negative. -/
theorem C8_length_dot (v : Vec3) (w : Vec4) :
    Vec3.length_squared v = Vec3.dot v v ∧
    Vec3.length v = Real.sqrt (Vec3.length_squared v) ∧
    0 ≤ Vec3.length v ∧
    Vec4.length_squared w = Vec4.dot w w ∧
    Vec4.length w = Real.sqrt (Vec4.length_squared w) ∧
    0 ≤ Vec4.length w :=
  ⟨rfl, rfl, Real.sqrt_nonneg _, rfl, rfl, Real.sqrt_nonneg _⟩

/- ### C3: translate * scale applied to a point -/

/-- C3: `translate(1,2,3) * scale(2,2,2)` applied to `Vec4([3,3,3,1])`
yields exactly `Vec4([7,8,9,1])`. -/
theorem C3_translate_scale_point :
    Mat4.mulVec (Mat4.mul (Mat4.translate 1 2 3) (Mat4.scale 2 2 2))
      (Vec4.mk 3 3 3 1) = Vec4.mk 7 8 9 1 := by
  refine Vec4.ext4_comp ?_ ?_ ?_ ?_ <;>
    simp [Mat4.mulVec, Mat4.mul, Mat4.translate, Mat4.scale] <;> norm_num

/- ### C6: identity is a two-sided unit for the implemented product -/

/-- C6: for every matrix `M`, `identity * M = M` and `M * identity = M`
under the implemented column-major product, entrywise. -/
theorem C6_identity_unit (M : Mat4) :
    Mat4.mul Mat4.identity M = M ∧ Mat4.mul M Mat4.identity = M := by
  constructor <;>
    · refine Mat4.ext_col ?_ ?_ ?_ ?_ <;>
        refine Vec4.ext4_comp ?_ ?_ ?_ ?_ <;>
          simp [Mat4.mul, Mat4.identity]

/- ### C9: the bottom row of look_at is affine -/

/-- C9: for all inputs, the look_at matrix has `M[0][3] = M[1][3] =
M[2][3] = 0` and `M[3][3] = 1`, independent of any degeneracy in the
other entries. -/
theorem C9_look_at_affine_row (eye center up : Vec3) :
    Mat4.look_at eye center up 0 3 = 0 ∧
    Mat4.look_at eye center up 1 3 = 0 ∧
    Mat4.look_at eye center up 2 3 = 0 ∧
    Mat4.look_at eye center up 3 3 = 1 := by
  refine ⟨?_, ?_, ?_, ?_⟩ <;> simp [Mat4.look_at]

/- ### C1: direction of the rotation constructors -/

/-- Transpose of a column-major matrix. -/
def Mat4.transposeM (m : Mat4) : Mat4 := fun c r => m r c

/-- The standard right-handed rotation about the X axis as the spec words
describe it (positive angle counter-clockwise seen from the positive axis),
stored column-major: entry `[col][row]` of the matrix with rows
`(1,0,0,0; 0,cos,-sin,0; 0,sin,cos,0; 0,0,0,1)`. -/
def Mat4.rotate_x_std (a : ℝ) : Mat4 :=
Mat4.mk (Vec4.mk 1 0 0 0)
  (Vec4.mk 0 (Real.cos a) (Real.sin a) 0)
  (Vec4.mk 0 (-Real.sin a) (Real.cos a) 0)
  (Vec4.mk 0 0 0 1)

/-- The standard right-handed rotation about the Y axis as the spec words
describe it, stored column-major: entry `[col][row]` of the matrix with rows
`(cos,0,sin,0; 0,1,0,0; -sin,0,cos,0; 0,0,0,1)`. -/
def Mat4.rotate_y_std (a : ℝ) : Mat4 :=
Mat4.mk (Vec4.mk (Real.cos a) 0 (-Real.sin a) 0)
  (Vec4.mk 0 1 0 0)
  (Vec4.mk (Real.sin a) 0 (Real.cos a) 0)
  (Vec4.mk 0 0 0 1)

/-- The standard right-handed rotation about the Z axis as the spec words
describe it, stored column-major: entry `[col][row]` of the matrix with rows
`(cos,-sin,0,0; sin,cos,0,0; 0,0,1,0; 0,0,0,1)`. -/
def Mat4.rotate_z_std (a : ℝ) : Mat4 :=
Mat4.mk (Vec4.mk (Real.cos a) (Real.sin a) 0 0)
  (Vec4.mk (-Real.sin a) (Real.cos a) 0 0)
  (Vec4.mk 0 0 1 0)
  (Vec4.mk 0 0 0 1)

/-- C1 counterexample: at angle pi/2 the image of the X basis vector under
`rotate_z` is not `(cos, sin, 0, 0)` as the claim states; the code yields
`(cos, -sin, 0, 0)`. -/
theorem C1_rotation_ccw_counterexample :
    Mat4.mulVec (Mat4.rotate_z (Real.pi / 2)) (Vec4.mk 1 0 0 0) ≠
      Vec4.mk (Real.cos (Real.pi / 2)) (Real.sin (Real.pi / 2)) 0 0 := by
  intro h
  have h1 := congrFun h 1
  norm_num [Mat4.mulVec, Mat4.rotate_z, Real.sin_pi_div_two,
    Real.cos_pi_div_two] at h1

/-- C1 (amended): the three rotation constructors are the transposes of the
standard right-handed (counter-clockwise) rotation matrices, so a positive
angle rotates clockwise when viewed from the positive axis toward the
origin; concretely `rotate_z a` maps the X basis vector to
`(cos a, -sin a, 0, 0)`, `rotate_x a` maps the Y basis vector to
`(0, cos a, -sin a, 0)`, and `rotate_y a` maps the Z basis vector to
`(-sin a, 0, cos a, 0)`. -/
theorem C1_rotations_are_transposed (a : ℝ) :
    Mat4.rotate_x a = Mat4.transposeM (Mat4.rotate_x_std a) ∧
    Mat4.rotate_y a = Mat4.transposeM (Mat4.rotate_y_std a) ∧
    Mat4.rotate_z a = Mat4.transposeM (Mat4.rotate_z_std a) ∧
    Mat4.mulVec (Mat4.rotate_z a) (Vec4.mk 1 0 0 0)
      = Vec4.mk (Real.cos a) (-Real.sin a) 0 0 ∧
    Mat4.mulVec (Mat4.rotate_x a) (Vec4.mk 0 1 0 0)
      = Vec4.mk 0 (Real.cos a) (-Real.sin a) 0 ∧
    Mat4.mulVec (Mat4.rotate_y a) (Vec4.mk 0 0 1 0)
      = Vec4.mk (-Real.sin a) 0 (Real.cos a) 0 := by
  refine ⟨?_, ?_, ?_, ?_, ?_, ?_⟩
  · refine Mat4.ext_col ?_ ?_ ?_ ?_ <;> refine Vec4.ext4_comp ?_ ?_ ?_ ?_ <;>
      simp [Mat4.transposeM, Mat4.rotate_x, Mat4.rotate_x_std]
  · refine Mat4.ext_col ?_ ?_ ?_ ?_ <;> refine Vec4.ext4_comp ?_ ?_ ?_ ?_ <;>
      simp [Mat4.transposeM, Mat4.rotate_y, Mat4.rotate_y_std]
  · refine Mat4.ext_col ?_ ?_ ?_ ?_ <;> refine Vec4.ext4_comp ?_ ?_ ?_ ?_ <;>
      simp [Mat4.transposeM, Mat4.rotate_z, Mat4.rotate_z_std]
  · refine Vec4.ext4_comp ?_ ?_ ?_ ?_ <;> simp [Mat4.mulVec, Mat4.rotate_z]
  · refine Vec4.ext4_comp ?_ ?_ ?_ ?_ <;> simp [Mat4.mulVec, Mat4.rotate_x]
  · refine Vec4.ext4_comp ?_ ?_ ?_ ?_ <;> simp [Mat4.mulVec, Mat4.rotate_y]

/- ### C4 and C5: the perspective projection -/

/-- C4: with nonzero aspect and distinct clip planes, `perspective` returns
the matrix with `M[0][0] = f/aspect`, `M[1][1] = f`,
`M[2][2] = (near+far)/(near-far)`, `M[2][3] = -1`,
`M[3][2] = 2*near*far/(near-far)` for `f = 1/tan(fov_y/2)`, and every
other entry zero. -/
theorem C4_perspective_entries (fov_y aspect z_near z_far : ℝ)
    (h1 : aspect ≠ 0) (h2 : z_near ≠ z_far) :
    Mat4.perspective fov_y aspect z_near z_far =
      some (Mat4.mk
        (Vec4.mk (1 / Real.tan (fov_y / 2) / aspect) 0 0 0)
        (Vec4.mk 0 (1 / Real.tan (fov_y / 2)) 0 0)
        (Vec4.mk 0 0 ((z_near + z_far) / (z_near - z_far)) (-1))
        (Vec4.mk 0 0 (2 * z_near * z_far / (z_near - z_far)) 0)) := by
  simp [Mat4.perspective, h1, h2]

/-- C4 witness: the theorem applied at `fov_y = 0`, `aspect = 1`,
`z_near = 1`, `z_far = 2`. -/
theorem C4_perspective_entries_witness :
    (1 : ℝ) ≠ 0 ∧ (1 : ℝ) ≠ 2 ∧
    Mat4.perspective 0 1 1 2 =
      some (Mat4.mk
        (Vec4.mk (1 / Real.tan (0 / 2) / 1) 0 0 0)
        (Vec4.mk 0 (1 / Real.tan (0 / 2)) 0 0)
        (Vec4.mk 0 0 ((1 + 2) / (1 - 2)) (-1))
        (Vec4.mk 0 0 (2 * 1 * 2 / (1 - 2)) 0)) :=
  ⟨by norm_num, by norm_num,
    C4_perspective_entries 0 1 1 2 (by norm_num) (by norm_num)⟩

/-- C5: `perspective` aborts (modelled as `none`) exactly when
`aspect = 0` or `z_near = z_far`; on all other inputs it returns a matrix
normally. -/
theorem C5_perspective_abort_iff (fov_y aspect z_near z_far : ℝ) :
    Mat4.perspective fov_y aspect z_near z_far = none ↔
      aspect = 0 ∨ z_near = z_far := by
  by_cases h : aspect = 0 ∨ z_near = z_far <;> simp [Mat4.perspective, h]

/- ### C2: look_at equals the specification description -/

/-- The squared length of a `Vec3` is non-negative. -/
theorem Vec3.length_squared_nonneg (v : Vec3) : 0 ≤ v.length_squared := by
  have h0 := mul_self_nonneg (v 0)
  have h1 := mul_self_nonneg (v 1)
  have h2 := mul_self_nonneg (v 2)
  simp only [Vec3.length_squared, Vec3.dot]
  linarith

/-- A `Vec3` with squared length zero is the zero vector. -/
theorem Vec3.eq_zero_of_lsq (v : Vec3) (h : v.length_squared = 0) :
    v = Vec3.zero := by
  simp only [Vec3.length_squared, Vec3.dot] at h
  have h0 := mul_self_nonneg (v 0)
  have h1 := mul_self_nonneg (v 1)
  have h2 := mul_self_nonneg (v 2)
  refine Vec3.ext3_comp ?_ ?_ ?_ <;> simp only [Vec3.zero, Vec3.mk3_app0,
    Vec3.mk3_app1, Vec3.mk3_app2] <;> nlinarith

/-- Normalizing a vector of nonzero squared length yields a unit vector. -/
theorem Vec3.normalize_lsq (v : Vec3) (h : v.length_squared ≠ 0) :
    (Vec3.normalize v).length_squared = 1 := by
  have hnn : 0 ≤ v.length_squared := Vec3.length_squared_nonneg v
  have hmul : Real.sqrt v.length_squared * Real.sqrt v.length_squared
      = v.length_squared := Real.mul_self_sqrt hnn
  have hexp : (Vec3.normalize v).length_squared =
      v.length_squared /
        (Real.sqrt v.length_squared * Real.sqrt v.length_squared) := by
    simp only [Vec3.normalize, Vec3.length, Vec3.length_squared, Vec3.dot,
      Vec3.mk3_app0, Vec3.mk3_app1, Vec3.mk3_app2]
    ring
  rw [hexp, hmul, div_self h]

/-- The depth axis is orthogonal to `up × z`: scalar triple product with a
repeated argument vanishes. -/
theorem Vec3.dot_cross_self (z u : Vec3) :
    Vec3.dot z (Vec3.cross u z) = 0 := by
  simp only [Vec3.dot, Vec3.cross, Vec3.mk3_app0, Vec3.mk3_app1,
    Vec3.mk3_app2]
  ring

/-- For a unit vector `z` orthogonal to `u`, normalizing `z × u` is the
same as crossing `z` with the normalized `u` (the norm of the cross
product of orthogonal vectors is the product of the norms). -/
theorem Vec3.normalize_cross_comm (z u : Vec3) (hz : z.length_squared = 1)
    (hperp : Vec3.dot z u = 0) :
    Vec3.normalize (Vec3.cross z u) = Vec3.cross z (Vec3.normalize u) := by
  have lagrange : (Vec3.cross z u).length_squared =
      z.length_squared * u.length_squared - Vec3.dot z u * Vec3.dot z u := by
    simp only [Vec3.cross, Vec3.length_squared, Vec3.dot, Vec3.mk3_app0,
      Vec3.mk3_app1, Vec3.mk3_app2]
    ring
  have hlsq : (Vec3.cross z u).length_squared = u.length_squared := by
    rw [lagrange, hz, hperp]; ring
  have hlen : (Vec3.cross z u).length = u.length := by
    simp only [Vec3.length, hlsq]
  refine Vec3.ext3_comp ?_ ?_ ?_ <;>
  · simp only [Vec3.normalize, Vec3.cross, Vec3.length, Vec3.length_squared,
      Vec3.dot, Vec3.mk3_app0, Vec3.mk3_app1, Vec3.mk3_app2] at hlen ⊢
    rw [hlen]
    ring

/-- The `look_at` matrix exactly as the specification claim words it: depth
axis `z = normalize(eye - center)`, right axis `x = normalize(up × z)`,
recomputed up axis `y = z × x` with `x` normalized first; column `c`, rows
0..2 hold `(x c, y c, z c)`, the fourth column holds
`(-x·eye, -y·eye, -z·eye, 1)`, and rows 3 of the first three columns are 0. -/
def Mat4.look_at_spec (eye center up : Vec3) : Mat4 :=
  let z := Vec3.normalize (Vec3.sub eye center)
  let x := Vec3.normalize (Vec3.cross up z)
  let y := Vec3.cross z x
  Mat4.mk (Vec4.mk (x 0) (y 0) (z 0) 0)
    (Vec4.mk (x 1) (y 1) (z 1) 0)
    (Vec4.mk (x 2) (y 2) (z 2) 0)
    (Vec4.mk (-(Vec3.dot x eye)) (-(Vec3.dot y eye)) (-(Vec3.dot z eye)) 1)

/-- C2: when `eye - center` is nonzero and `up` is not parallel to
`eye - center`, the implemented `look_at` (which forms `y = z × x` before
normalizing `x`, then normalizes `y`) equals the matrix described by the
specification, built from `z = normalize(eye - center)`,
`x = normalize(up × z)` and `y = z × x`. -/
theorem C2_look_at_correct (eye center up : Vec3)
    (h1 : Vec3.sub eye center ≠ Vec3.zero)
    (h2 : Vec3.cross up (Vec3.sub eye center) ≠ Vec3.zero) :
    Mat4.look_at eye center up = Mat4.look_at_spec eye center up := by
  have hw : (Vec3.sub eye center).length_squared ≠ 0 :=
    fun h0 => h1 (Vec3.eq_zero_of_lsq _ h0)
  have hz1 : (Vec3.normalize (Vec3.sub eye center)).length_squared = 1 :=
    Vec3.normalize_lsq _ hw
  have key := Vec3.normalize_cross_comm
    (Vec3.normalize (Vec3.sub eye center))
    (Vec3.cross up (Vec3.normalize (Vec3.sub eye center)))
    hz1 (Vec3.dot_cross_self _ _)
  simp only [Mat4.look_at, Mat4.look_at_spec]
  rw [key]

/-- C2 witness: the theorem applied at `eye = (0,0,5)`, `center = (0,0,0)`,
`up = (0,1,0)`. -/
theorem C2_look_at_correct_witness :
    (Vec3.sub (Vec3.mk 0 0 5) (Vec3.mk 0 0 0) ≠ Vec3.zero) ∧
    (Vec3.cross (Vec3.mk 0 1 0) (Vec3.sub (Vec3.mk 0 0 5) (Vec3.mk 0 0 0))
      ≠ Vec3.zero) ∧
    Mat4.look_at (Vec3.mk 0 0 5) (Vec3.mk 0 0 0) (Vec3.mk 0 1 0) =
      Mat4.look_at_spec (Vec3.mk 0 0 5) (Vec3.mk 0 0 0) (Vec3.mk 0 1 0) := by
  have h1 : Vec3.sub (Vec3.mk 0 0 5) (Vec3.mk 0 0 0) ≠ Vec3.zero := by
    intro h
    have hc := congrFun h 2
    norm_num [Vec3.sub, Vec3.zero] at hc
  have h2 : Vec3.cross (Vec3.mk 0 1 0)
      (Vec3.sub (Vec3.mk 0 0 5) (Vec3.mk 0 0 0)) ≠ Vec3.zero := by
    intro h
    have h0 := congrFun h 0
    norm_num [Vec3.cross, Vec3.sub, Vec3.zero] at h0
  exact ⟨h1, h2, C2_look_at_correct _ _ _ h1 h2⟩

/- ### C10: totality of the public operations -/

/-!
Bounds-checked model for the totality claim.  Raw values are plain lists
of reals; every index access of the source (through the `Index`/`IndexMut`
implementations, which panic out of range) is modelled with `List.get?`,
which is `none` exactly when the Rust access would panic.  The loops of
the source become `foldlM` over `List.range size` in the `Option` monad,
so an out-of-range access anywhere makes the whole operation `none`.
-/

namespace Checked

/-- The components of a `Vec3` as a raw list. -/
def vecToList3 (v : Vec3) : List ℝ := [v 0, v 1, v 2]

/-- The components of a `Vec4` as a raw list. -/
def vecToList4 (v : Vec4) : List ℝ := [v 0, v 1, v 2, v 3]

/-- The columns of a `Mat4` as raw lists. -/
def matToLists (m : Mat4) : List (List ℝ) :=
  [[m 0 0, m 0 1, m 0 2, m 0 3],
   [m 1 0, m 1 1, m 1 2, m 1 3],
   [m 2 0, m 2 1, m 2 2, m 2 3],
   [m 3 0, m 3 1, m 3 2, m 3 3]]

/-- Checked `zero`: an array literal, no index access. -/
def zeroV (size : Nat) : Option (List ℝ) := pure (List.replicate size 0)

/-- Checked `dot`: the accumulation loop with checked reads. -/
def dotC (size : Nat) (a b : List ℝ) : Option ℝ :=
  (List.range size).foldlM (fun acc i => do
    let x ← a.get? i
    let y ← b.get? i
    pure (acc + x * y)) 0

/-- Checked `length_squared`: `self.dot(self)`. -/
def length_squaredC (size : Nat) (v : List ℝ) : Option ℝ := dotC size v v

/-- Checked `length`: square root of the checked `length_squared`. -/
def lengthC (size : Nat) (v : List ℝ) : Option ℝ :=
  (length_squaredC size v).map Real.sqrt

/-- Checked `normalize`: the length is computed once, then every component
is read and written back divided by it. -/
def normalizeC (size : Nat) (v : List ℝ) : Option (List ℝ) := do
  let len ← lengthC size v
  (List.range size).foldlM (fun w i => do
    let x ← w.get? i
    pure (w.set i (x / len))) v

/-- Checked `add`: reads of both operands and of the freshly zeroed result,
then the write. -/
def addC (size : Nat) (a b : List ℝ) : Option (List ℝ) :=
  (List.range size).foldlM (fun r i => do
    let x ← a.get? i
    let y ← b.get? i
    let _ ← r.get? i
    pure (r.set i (x + y))) (List.replicate size 0)

/-- Checked `sub`, same loop as `add` with subtraction. -/
def subC (size : Nat) (a b : List ℝ) : Option (List ℝ) :=
  (List.range size).foldlM (fun r i => do
    let x ← a.get? i
    let y ← b.get? i
    let _ ← r.get? i
    pure (r.set i (x - y))) (List.replicate size 0)

/-- Checked `cross`: the six reads of the source expression. -/
def crossC (a b : List ℝ) : Option (List ℝ) := do
  let a0 ← a.get? 0
  let a1 ← a.get? 1
  let a2 ← a.get? 2
  let b0 ← b.get? 0
  let b1 ← b.get? 1
  let b2 ← b.get? 2
  pure [a1 * b2 - a2 * b1, a2 * b0 - a0 * b2, a0 * b1 - a1 * b0]

/-- Checked `identity`: an array literal, no index access. -/
def identityC : Option (List (List ℝ)) :=
  pure [[1, 0, 0, 0], [0, 1, 0, 0], [0, 0, 1, 0], [0, 0, 0, 1]]

/-- Checked `scale`: an array literal, no index access. -/
def scaleC (x y z : ℝ) : Option (List (List ℝ)) :=
  pure [[x, 0, 0, 0], [0, y, 0, 0], [0, 0, z, 0], [0, 0, 0, 1]]

/-- Checked `translate`: an array literal, no index access. -/
def translateC (x y z : ℝ) : Option (List (List ℝ)) :=
  pure [[1, 0, 0, 0], [0, 1, 0, 0], [0, 0, 1, 0], [x, y, z, 1]]

/-- Checked `rotate_x`: an array literal, no index access. -/
def rotate_xC (angle : ℝ) : Option (List (List ℝ)) :=
  pure [[1, 0, 0, 0],
        [0, Real.cos angle, -Real.sin angle, 0],
        [0, Real.sin angle, Real.cos angle, 0],
        [0, 0, 0, 1]]

/-- Checked `rotate_y`: an array literal, no index access. -/
def rotate_yC (angle : ℝ) : Option (List (List ℝ)) :=
  pure [[Real.cos angle, 0, Real.sin angle, 0],
        [0, 1, 0, 0],
        [-Real.sin angle, 0, Real.cos angle, 0],
        [0, 0, 0, 1]]

/-- Checked `rotate_z`: an array literal, no index access. -/
def rotate_zC (angle : ℝ) : Option (List (List ℝ)) :=
  pure [[Real.cos angle, -Real.sin angle, 0, 0],
        [Real.sin angle, Real.cos angle, 0, 0],
        [0, 0, 1, 0],
        [0, 0, 0, 1]]

/-- Checked axis computation of `look_at`: the source statement sequence
with every vector operation checked. -/
def axesC (eye center up : List ℝ) : Option (List ℝ × List ℝ × List ℝ) := do
  let z0 ← subC 3 eye center
  let z ← normalizeC 3 z0
  let x0 ← crossC up z
  let y0 ← crossC z x0
  let x ← normalizeC 3 x0
  let y ← normalizeC 3 y0
  pure (x, y, z)

/-- One of the first three columns of the checked `look_at` matrix: the
three checked component reads at index `i`. -/
def colC (x y z : List ℝ) (i : Nat) : Option (List ℝ) := do
  let xi ← x.get? i
  let yi ← y.get? i
  let zi ← z.get? i
  pure [xi, yi, zi, 0]

/-- Checked `look_at`: the checked axes, then the checked component reads
and dot products that build the matrix literal. -/
def look_atC (eye center up : List ℝ) : Option (List (List ℝ)) := do
  let a ← axesC eye center up
  let c0 ← colC a.1 a.2.1 a.2.2 0
  let c1 ← colC a.1 a.2.1 a.2.2 1
  let c2 ← colC a.1 a.2.1 a.2.2 2
  let dx ← dotC 3 a.1 eye
  let dy ← dotC 3 a.2.1 eye
  let dz ← dotC 3 a.2.2 eye
  pure [c0, c1, c2, [-dx, -dy, -dz, 1]]

def mulC (a b : List (List ℝ)) : Option (List (List ℝ)) :=
  (List.range 4).foldlM (fun res col =>
    (List.range 4).foldlM (fun res row =>
      (List.range 4).foldlM (fun res i => do
        let ai ← a.get? i
        let air ← ai.get? row
        let bc ← b.get? col
        let bci ← bc.get? i
        let rc ← res.get? col
        let rcr ← rc.get? row
        pure (res.set col (rc.set row (rcr + air * bci)))) res) res)
    (List.replicate 4 (List.replicate 4 (0 : ℝ)))

/-- Checked `Mat4 * Vec4`: the double loop with every access checked,
accumulating into a zero vector. -/
def mulVecC (m : List (List ℝ)) (v : List ℝ) : Option (List ℝ) :=
  (List.range 4).foldlM (fun res col =>
    (List.range 4).foldlM (fun res row => do
      let mc ← m.get? col
      let mcr ← mc.get? row
      let vc ← v.get? col
      let rr ← res.get? row
      pure (res.set row (rr + mcr * vc))) res)
    (List.replicate 4 (0 : ℝ))



/-- Fold in the `Option` monad with an invariant: when every step succeeds
and preserves the invariant, the whole fold returns a value satisfying it. -/
theorem foldlM_some_inv {α β : Type} (P : α → Prop) (f : α → β → Option α) :
    ∀ (l : List β) (init : α), P init →
      (∀ a b, b ∈ l → P a → ∃ a2, f a b = some a2 ∧ P a2) →
      ∃ r, l.foldlM f init = some r ∧ P r := by
  intro l
  induction l with
  | nil => exact fun init hP _ => ⟨init, rfl, hP⟩
  | cons b t ih =>
      intro init hP h
      obtain ⟨a2, hf, hP2⟩ := h init b (List.mem_cons_self _ _) hP
      obtain ⟨r, hfold, hPr⟩ :=
        ih a2 hP2 (fun a c hc hPa => h a c (List.mem_cons_of_mem _ hc) hPa)
      refine ⟨r, ?_, hPr⟩
      rw [List.foldlM_cons, hf]
      exact hfold

/-- An in-range checked read returns a value. -/
theorem get?_some {α : Type} {l : List α} {i : Nat} (h : i < l.length) :
    ∃ x, l.get? i = some x := ⟨_, List.get?_eq_get h⟩

/-- A successful checked read yields an element of the list. -/
theorem mem_of_get?_some {α : Type} {l : List α} {i : Nat} {x : α}
    (h : l.get? i = some x) : x ∈ l :=
  List.getElem?_mem (by rw [← List.get?_eq_getElem?]; exact h)

/-- The checked dot product succeeds on long-enough inputs. -/
theorem dotC_some (size : Nat) (a b : List ℝ) (ha : size ≤ a.length)
    (hb : size ≤ b.length) : ∃ r, dotC size a b = some r := by
  have hstep : ∀ (acc : ℝ) (i : Nat), i ∈ List.range size → True →
      ∃ a2, (do
        let x ← a.get? i
        let y ← b.get? i
        pure (acc + x * y) : Option ℝ) = some a2 ∧ True := by
    intro acc i hi _
    have hia : i < a.length := lt_of_lt_of_le (List.mem_range.mp hi) ha
    have hib : i < b.length := lt_of_lt_of_le (List.mem_range.mp hi) hb
    obtain ⟨x, hx⟩ := get?_some hia
    obtain ⟨y, hy⟩ := get?_some hib
    refine ⟨acc + x * y, by rw [hx, hy]; rfl, trivial⟩
  obtain ⟨r, hr, -⟩ :=
    foldlM_some_inv (fun _ => True) _ (List.range size) 0 trivial hstep
  exact ⟨r, hr⟩
/-- The checked normalize succeeds on long-enough inputs, preserving the
length. -/
theorem normalizeC_some (size : Nat) (v : List ℝ) (hv : size ≤ v.length) :
    ∃ r, normalizeC size v = some r ∧ r.length = v.length := by
  obtain ⟨s, hs⟩ := dotC_some size v v hv hv
  have hlen : lengthC size v = some (Real.sqrt s) := by
    simp only [lengthC, length_squaredC, hs, Option.map_some']
  have hstep : ∀ (w : List ℝ) (i : Nat), i ∈ List.range size →
      w.length = v.length →
      ∃ w2, (do
        let x ← w.get? i
        pure (w.set i (x / Real.sqrt s)) : Option (List ℝ)) = some w2 ∧
        w2.length = v.length := by
    intro w i hi hw
    have hiw : i < w.length := by
      have := List.mem_range.mp hi
      omega
    obtain ⟨x, hx⟩ := get?_some hiw
    exact ⟨w.set i (x / Real.sqrt s), by rw [hx]; rfl, by simp [hw]⟩
  obtain ⟨r, hr, hrl⟩ :=
    foldlM_some_inv (fun w => w.length = v.length) _ (List.range size) v rfl
      hstep
  refine ⟨r, ?_, hrl⟩
  show (do
    let len ← lengthC size v
    (List.range size).foldlM (fun w i => do
      let x ← w.get? i
      pure (w.set i (x / len))) v) = some r
  rw [hlen]
  exact hr

/-- The checked subtraction succeeds on long-enough inputs; the result has
length `size`. -/
theorem subC_some (size : Nat) (a b : List ℝ) (ha : size ≤ a.length)
    (hb : size ≤ b.length) : ∃ r, subC size a b = some r ∧ r.length = size := by
  have hstep : ∀ (w : List ℝ) (i : Nat), i ∈ List.range size →
      w.length = size →
      ∃ w2, (do
        let x ← a.get? i
        let y ← b.get? i
        let _ ← w.get? i
        pure (w.set i (x - y)) : Option (List ℝ)) = some w2 ∧
        w2.length = size := by
    intro w i hi hw
    have hi' := List.mem_range.mp hi
    obtain ⟨x, hx⟩ := get?_some (show i < a.length by omega)
    obtain ⟨y, hy⟩ := get?_some (show i < b.length by omega)
    obtain ⟨o, ho⟩ := get?_some (show i < w.length by omega)
    exact ⟨w.set i (x - y), by rw [hx, hy, ho]; rfl, by simp [hw]⟩
  obtain ⟨r, hr, hrl⟩ :=
    foldlM_some_inv (fun w => w.length = size) _ (List.range size)
      (List.replicate size 0) (by simp) hstep
  exact ⟨r, hr, hrl⟩

/-- The checked addition succeeds on long-enough inputs; the result has
length `size`. -/
theorem addC_some (size : Nat) (a b : List ℝ) (ha : size ≤ a.length)
    (hb : size ≤ b.length) : ∃ r, addC size a b = some r ∧ r.length = size := by
  have hstep : ∀ (w : List ℝ) (i : Nat), i ∈ List.range size →
      w.length = size →
      ∃ w2, (do
        let x ← a.get? i
        let y ← b.get? i
        let _ ← w.get? i
        pure (w.set i (x + y)) : Option (List ℝ)) = some w2 ∧
        w2.length = size := by
    intro w i hi hw
    have hi' := List.mem_range.mp hi
    obtain ⟨x, hx⟩ := get?_some (show i < a.length by omega)
    obtain ⟨y, hy⟩ := get?_some (show i < b.length by omega)
    obtain ⟨o, ho⟩ := get?_some (show i < w.length by omega)
    exact ⟨w.set i (x + y), by rw [hx, hy, ho]; rfl, by simp [hw]⟩
  obtain ⟨r, hr, hrl⟩ :=
    foldlM_some_inv (fun w => w.length = size) _ (List.range size)
      (List.replicate size 0) (by simp) hstep
  exact ⟨r, hr, hrl⟩

/-- The checked cross product succeeds on long-enough inputs; the result
has length 3. -/
theorem crossC_some (a b : List ℝ) (ha : 3 ≤ a.length) (hb : 3 ≤ b.length) :
    ∃ r, crossC a b = some r ∧ r.length = 3 := by
  obtain ⟨a0, ha0⟩ := get?_some (show 0 < a.length by omega)
  obtain ⟨a1, ha1⟩ := get?_some (show 1 < a.length by omega)
  obtain ⟨a2, ha2⟩ := get?_some (show 2 < a.length by omega)
  obtain ⟨b0, hb0⟩ := get?_some (show 0 < b.length by omega)
  obtain ⟨b1, hb1⟩ := get?_some (show 1 < b.length by omega)
  obtain ⟨b2, hb2⟩ := get?_some (show 2 < b.length by omega)
  refine ⟨[a1 * b2 - a2 * b1, a2 * b0 - a0 * b2, a0 * b1 - a1 * b0], ?_, rfl⟩
  show (do
    let a0 ← a.get? 0
    let a1 ← a.get? 1
    let a2 ← a.get? 2
    let b0 ← b.get? 0
    let b1 ← b.get? 1
    let b2 ← b.get? 2
    pure [a1 * b2 - a2 * b1, a2 * b0 - a0 * b2, a0 * b1 - a1 * b0]) =
      some [a1 * b2 - a2 * b1, a2 * b0 - a0 * b2, a0 * b1 - a1 * b0]
  rw [ha0, ha1, ha2, hb0, hb1, hb2]
  rfl
/-- The checked axis computation succeeds on length-3 inputs and yields
three length-3 axes. -/
theorem axesC_some (eye center up : List ℝ) (he : eye.length = 3)
    (hc : center.length = 3) (hu : up.length = 3) :
    ∃ x y z, axesC eye center up = some (x, y, z) ∧
      x.length = 3 ∧ y.length = 3 ∧ z.length = 3 := by
  obtain ⟨z0, hz0, hz0l⟩ := subC_some 3 eye center (by omega) (by omega)
  obtain ⟨z, hz, hzl⟩ := normalizeC_some 3 z0 (by omega)
  have hzl3 : z.length = 3 := by omega
  obtain ⟨x0, hx0, hx0l⟩ := crossC_some up z (by omega) (by omega)
  obtain ⟨y0, hy0, hy0l⟩ := crossC_some z x0 (by omega) (by omega)
  obtain ⟨x, hx, hxl⟩ := normalizeC_some 3 x0 (by omega)
  obtain ⟨y, hy, hyl⟩ := normalizeC_some 3 y0 (by omega)
  refine ⟨x, y, z, ?_, by omega, by omega, hzl3⟩
  show (do
    let z0 ← subC 3 eye center
    let z ← normalizeC 3 z0
    let x0 ← crossC up z
    let y0 ← crossC z x0
    let x ← normalizeC 3 x0
    let y ← normalizeC 3 y0
    pure (x, y, z)) = some (x, y, z)
  simp only [hz0, hz, hx0, hy0, hx, hy, Option.bind_eq_bind,
    Option.some_bind, Option.pure_def]

/-- A checked column read succeeds when the axes have length 3 and the
index is below 3. -/
theorem colC_some (x y z : List ℝ) (i : Nat) (hx : x.length = 3)
    (hy : y.length = 3) (hz : z.length = 3) (hi : i < 3) :
    ∃ c, colC x y z i = some c := by
  obtain ⟨xi, hxi⟩ := get?_some (show i < x.length by omega)
  obtain ⟨yi, hyi⟩ := get?_some (show i < y.length by omega)
  obtain ⟨zi, hzi⟩ := get?_some (show i < z.length by omega)
  refine ⟨[xi, yi, zi, 0], ?_⟩
  show (do
    let xi ← x.get? i
    let yi ← y.get? i
    let zi ← z.get? i
    pure [xi, yi, zi, 0]) = some [xi, yi, zi, 0]
  rw [hxi, hyi, hzi]
  rfl

/-- The checked `look_at` succeeds on length-3 inputs. -/
theorem look_atC_some (eye center up : List ℝ) (he : eye.length = 3)
    (hc : center.length = 3) (hu : up.length = 3) :
    ∃ r, look_atC eye center up = some r := by
  obtain ⟨x, y, z, ha, hx3, hy3, hz3⟩ := axesC_some eye center up he hc hu
  obtain ⟨c0, hc0⟩ := colC_some x y z 0 hx3 hy3 hz3 (by omega)
  obtain ⟨c1, hc1⟩ := colC_some x y z 1 hx3 hy3 hz3 (by omega)
  obtain ⟨c2, hc2⟩ := colC_some x y z 2 hx3 hy3 hz3 (by omega)
  obtain ⟨dx, hdx⟩ := dotC_some 3 x eye (by omega) (by omega)
  obtain ⟨dy, hdy⟩ := dotC_some 3 y eye (by omega) (by omega)
  obtain ⟨dz, hdz⟩ := dotC_some 3 z eye (by omega) (by omega)
  refine ⟨[c0, c1, c2, [-dx, -dy, -dz, 1]], ?_⟩
  show (do
    let a ← axesC eye center up
    let c0 ← colC a.1 a.2.1 a.2.2 0
    let c1 ← colC a.1 a.2.1 a.2.2 1
    let c2 ← colC a.1 a.2.1 a.2.2 2
    let dx ← dotC 3 a.1 eye
    let dy ← dotC 3 a.2.1 eye
    let dz ← dotC 3 a.2.2 eye
    pure [c0, c1, c2, [-dx, -dy, -dz, 1]]) =
      some [c0, c1, c2, [-dx, -dy, -dz, 1]]
  rw [ha]
  show (do
    let c0 ← colC x y z 0
    let c1 ← colC x y z 1
    let c2 ← colC x y z 2
    let dx ← dotC 3 x eye
    let dy ← dotC 3 y eye
    let dz ← dotC 3 z eye
    pure [c0, c1, c2, [-dx, -dy, -dz, 1]]) =
      some [c0, c1, c2, [-dx, -dy, -dz, 1]]
  rw [hc0, hc1, hc2, hdx, hdy, hdz]
  rfl

/-- The checked matrix-vector product succeeds on a 4×4 matrix and a
length-4 vector. -/
theorem mulVecC_some (m : List (List ℝ)) (v : List ℝ) (hm : m.length = 4)
    (hmc : ∀ c ∈ m, c.length = 4) (hv : v.length = 4) :
    ∃ r, mulVecC m v = some r := by
  have hstep : ∀ (res : List ℝ) (col : Nat), col ∈ List.range 4 →
      res.length = 4 →
      ∃ res2, (List.range 4).foldlM (fun res row => do
          let mc ← m.get? col
          let mcr ← mc.get? row
          let vc ← v.get? col
          let rr ← res.get? row
          pure (res.set row (rr + mcr * vc))) res = some res2 ∧
        res2.length = 4 := by
    intro res col hcol hres
    have hcol4 := List.mem_range.mp hcol
    have hinner : ∀ (r2 : List ℝ) (row : Nat), row ∈ List.range 4 →
        r2.length = 4 →
        ∃ r3, (do
          let mc ← m.get? col
          let mcr ← mc.get? row
          let vc ← v.get? col
          let rr ← r2.get? row
          pure (r2.set row (rr + mcr * vc)) : Option (List ℝ)) = some r3 ∧
          r3.length = 4 := by
      intro r2 row hrow hr2
      have hrow4 := List.mem_range.mp hrow
      obtain ⟨mc, hmcs⟩ := get?_some (show col < m.length by omega)
      have hmcl : mc.length = 4 := hmc _ (mem_of_get?_some hmcs)
      obtain ⟨mcr, hmcr⟩ := get?_some (show row < mc.length by omega)
      obtain ⟨vc, hvc⟩ := get?_some (show col < v.length by omega)
      obtain ⟨rr, hrr⟩ := get?_some (show row < r2.length by omega)
      refine ⟨r2.set row (rr + mcr * vc), ?_, by simp [hr2]⟩
      simp only [hmcs, hmcr, hvc, hrr, Option.bind_eq_bind,
        Option.some_bind, Option.pure_def]
    exact foldlM_some_inv (fun w => w.length = 4) _ (List.range 4) res hres
      hinner
  obtain ⟨r, hr, -⟩ :=
    foldlM_some_inv (fun w => w.length = 4) _ (List.range 4)
      (List.replicate 4 0) (by simp) hstep
  exact ⟨r, hr⟩

/-- The checked matrix-matrix product succeeds on 4×4 matrices. -/
theorem mulC_some (a b : List (List ℝ)) (ha : a.length = 4)
    (hac : ∀ c ∈ a, c.length = 4) (hb : b.length = 4)
    (hbc : ∀ c ∈ b, c.length = 4) : ∃ r, mulC a b = some r := by
  have hstepc : ∀ (res : List (List ℝ)) (col : Nat), col ∈ List.range 4 →
      (res.length = 4 ∧ ∀ c ∈ res, c.length = 4) →
      ∃ res2, (List.range 4).foldlM (fun res row =>
          (List.range 4).foldlM (fun res i => do
            let ai ← a.get? i
            let air ← ai.get? row
            let bc ← b.get? col
            let bci ← bc.get? i
            let rc ← res.get? col
            let rcr ← rc.get? row
            pure (res.set col (rc.set row (rcr + air * bci)))) res) res
        = some res2 ∧ res2.length = 4 ∧ ∀ c ∈ res2, c.length = 4 := by
    intro res col hcol hres
    have hcol4 := List.mem_range.mp hcol
    have hstepr : ∀ (r2 : List (List ℝ)) (row : Nat), row ∈ List.range 4 →
        (r2.length = 4 ∧ ∀ c ∈ r2, c.length = 4) →
        ∃ r3, (List.range 4).foldlM (fun res i => do
            let ai ← a.get? i
            let air ← ai.get? row
            let bc ← b.get? col
            let bci ← bc.get? i
            let rc ← res.get? col
            let rcr ← rc.get? row
            pure (res.set col (rc.set row (rcr + air * bci)))) r2
          = some r3 ∧ r3.length = 4 ∧ ∀ c ∈ r3, c.length = 4 := by
      intro r2 row hrow hr2
      have hrow4 := List.mem_range.mp hrow
      have hstepi : ∀ (r3 : List (List ℝ)) (i : Nat), i ∈ List.range 4 →
          (r3.length = 4 ∧ ∀ c ∈ r3, c.length = 4) →
          ∃ r4, (do
            let ai ← a.get? i
            let air ← ai.get? row
            let bc ← b.get? col
            let bci ← bc.get? i
            let rc ← r3.get? col
            let rcr ← rc.get? row
            pure (r3.set col (rc.set row (rcr + air * bci)))
              : Option (List (List ℝ))) = some r4 ∧
            r4.length = 4 ∧ ∀ c ∈ r4, c.length = 4 := by
        intro r3 i hi hr3
        have hi4 := List.mem_range.mp hi
        obtain ⟨ai, hai⟩ := get?_some (show i < a.length by omega)
        have hail : ai.length = 4 := hac _ (mem_of_get?_some hai)
        obtain ⟨air, hair⟩ := get?_some (show row < ai.length by omega)
        obtain ⟨bc, hbcs⟩ := get?_some (show col < b.length by omega)
        have hbcl : bc.length = 4 := hbc _ (mem_of_get?_some hbcs)
        obtain ⟨bci, hbci⟩ := get?_some (show i < bc.length by omega)
        obtain ⟨rc, hrc⟩ := get?_some (show col < r3.length by omega)
        have hrcl : rc.length = 4 := hr3.2 _ (mem_of_get?_some hrc)
        obtain ⟨rcr, hrcr⟩ := get?_some (show row < rc.length by omega)
        refine ⟨r3.set col (rc.set row (rcr + air * bci)), ?_, ?_, ?_⟩
        · simp only [hai, hair, hbcs, hbci, hrc, hrcr,
            Option.bind_eq_bind, Option.some_bind, Option.pure_def]
        · simp [hr3.1]
        · intro c hcm
          rcases List.mem_or_eq_of_mem_set hcm with hmem | rfl
          · exact hr3.2 _ hmem
          · simp [hrcl]
      exact foldlM_some_inv
        (fun w => w.length = 4 ∧ ∀ c ∈ w, c.length = 4) _ (List.range 4) r2
        hr2 hstepi
    exact foldlM_some_inv
      (fun w => w.length = 4 ∧ ∀ c ∈ w, c.length = 4) _ (List.range 4) res
      hres hstepr
  obtain ⟨r, hr, -⟩ :=
    foldlM_some_inv (fun w => w.length = 4 ∧ ∀ c ∈ w, c.length = 4) _
      (List.range 4) (List.replicate 4 (List.replicate 4 0)) (by simp)
      hstepc
  exact ⟨r, hr⟩
/-- The raw list of a `Vec3` has length 3. -/
theorem vecToList3_length (v : Vec3) : (vecToList3 v).length = 3 := rfl

/-- The raw list of a `Vec4` has length 4. -/
theorem vecToList4_length (v : Vec4) : (vecToList4 v).length = 4 := rfl

/-- The raw column list of a `Mat4` has length 4. -/
theorem matToLists_length (m : Mat4) : (matToLists m).length = 4 := rfl

/-- Every raw column of a `Mat4` has length 4. -/
theorem matToLists_cols (m : Mat4) : ∀ c ∈ matToLists m, c.length = 4 := by
  intro c hc
  simp only [matToLists, List.mem_cons, List.not_mem_nil, or_false] at hc
  rcases hc with rfl | rfl | rfl | rfl <;> rfl

/-- An option known to be some value satisfies `isSome`. -/
theorem isSome_of_eq_some {α : Type} {o : Option α} {x : α}
    (h : o = some x) : o.isSome := by rw [h]; rfl

end Checked

/-- C10: every public operation other than `perspective` and the raw index
operators is total.  On arbitrary well-shaped inputs the bounds-checked
model of each operation returns a value (`isSome`): no internal index
access is out of bounds, so none of them can panic. -/
theorem C10_operations_total (a b : Vec3) (u v : Vec4) (m n : Mat4)
    (x y z angle : ℝ) (eye center up : Vec3) :
    (Checked.zeroV 3).isSome ∧
    (Checked.zeroV 4).isSome ∧
    (Checked.dotC 3 (Checked.vecToList3 a) (Checked.vecToList3 b)).isSome ∧
    (Checked.dotC 4 (Checked.vecToList4 u) (Checked.vecToList4 v)).isSome ∧
    (Checked.length_squaredC 3 (Checked.vecToList3 a)).isSome ∧
    (Checked.length_squaredC 4 (Checked.vecToList4 u)).isSome ∧
    (Checked.lengthC 3 (Checked.vecToList3 a)).isSome ∧
    (Checked.lengthC 4 (Checked.vecToList4 u)).isSome ∧
    (Checked.normalizeC 3 (Checked.vecToList3 a)).isSome ∧
    (Checked.normalizeC 4 (Checked.vecToList4 u)).isSome ∧
    (Checked.addC 3 (Checked.vecToList3 a) (Checked.vecToList3 b)).isSome ∧
    (Checked.addC 4 (Checked.vecToList4 u) (Checked.vecToList4 v)).isSome ∧
    (Checked.subC 3 (Checked.vecToList3 a) (Checked.vecToList3 b)).isSome ∧
    (Checked.subC 4 (Checked.vecToList4 u) (Checked.vecToList4 v)).isSome ∧
    (Checked.crossC (Checked.vecToList3 a) (Checked.vecToList3 b)).isSome ∧
    Checked.identityC.isSome ∧
    (Checked.scaleC x y z).isSome ∧
    (Checked.translateC x y z).isSome ∧
    (Checked.rotate_xC angle).isSome ∧
    (Checked.rotate_yC angle).isSome ∧
    (Checked.rotate_zC angle).isSome ∧
    (Checked.look_atC (Checked.vecToList3 eye) (Checked.vecToList3 center)
      (Checked.vecToList3 up)).isSome ∧
    (Checked.mulC (Checked.matToLists m) (Checked.matToLists n)).isSome ∧
    (Checked.mulVecC (Checked.matToLists m) (Checked.vecToList4 v)).isSome := by
  refine ⟨rfl, rfl, ?_, ?_, ?_, ?_, ?_, ?_, ?_, ?_, ?_, ?_, ?_, ?_, ?_,
    rfl, rfl, rfl, rfl, rfl, rfl, ?_, ?_, ?_⟩
  · obtain ⟨r, hr⟩ := Checked.dotC_some 3 _ _ (le_of_eq
      (Checked.vecToList3_length a).symm) (le_of_eq
      (Checked.vecToList3_length b).symm)
    exact Checked.isSome_of_eq_some hr
  · obtain ⟨r, hr⟩ := Checked.dotC_some 4 _ _ (le_of_eq
      (Checked.vecToList4_length u).symm) (le_of_eq
      (Checked.vecToList4_length v).symm)
    exact Checked.isSome_of_eq_some hr
  · obtain ⟨r, hr⟩ := Checked.dotC_some 3 _ _ (le_of_eq
      (Checked.vecToList3_length a).symm) (le_of_eq
      (Checked.vecToList3_length a).symm)
    exact Checked.isSome_of_eq_some hr
  · obtain ⟨r, hr⟩ := Checked.dotC_some 4 _ _ (le_of_eq
      (Checked.vecToList4_length u).symm) (le_of_eq
      (Checked.vecToList4_length u).symm)
    exact Checked.isSome_of_eq_some hr
  · obtain ⟨r, hr⟩ := Checked.dotC_some 3 _ _ (le_of_eq
      (Checked.vecToList3_length a).symm) (le_of_eq
      (Checked.vecToList3_length a).symm)
    have hl : Checked.lengthC 3 (Checked.vecToList3 a)
        = some (Real.sqrt r) := by
      simp only [Checked.lengthC, Checked.length_squaredC, hr,
        Option.map_some']
    exact Checked.isSome_of_eq_some hl
  · obtain ⟨r, hr⟩ := Checked.dotC_some 4 _ _ (le_of_eq
      (Checked.vecToList4_length u).symm) (le_of_eq
      (Checked.vecToList4_length u).symm)
    have hl : Checked.lengthC 4 (Checked.vecToList4 u)
        = some (Real.sqrt r) := by
      simp only [Checked.lengthC, Checked.length_squaredC, hr,
        Option.map_some']
    exact Checked.isSome_of_eq_some hl
  · obtain ⟨r, hr, -⟩ := Checked.normalizeC_some 3 _ (le_of_eq
      (Checked.vecToList3_length a).symm)
    exact Checked.isSome_of_eq_some hr
  · obtain ⟨r, hr, -⟩ := Checked.normalizeC_some 4 _ (le_of_eq
      (Checked.vecToList4_length u).symm)
    exact Checked.isSome_of_eq_some hr
  · obtain ⟨r, hr, -⟩ := Checked.addC_some 3 _ _ (le_of_eq
      (Checked.vecToList3_length a).symm) (le_of_eq
      (Checked.vecToList3_length b).symm)
    exact Checked.isSome_of_eq_some hr
  · obtain ⟨r, hr, -⟩ := Checked.addC_some 4 _ _ (le_of_eq
      (Checked.vecToList4_length u).symm) (le_of_eq
      (Checked.vecToList4_length v).symm)
    exact Checked.isSome_of_eq_some hr
  · obtain ⟨r, hr, -⟩ := Checked.subC_some 3 _ _ (le_of_eq
      (Checked.vecToList3_length a).symm) (le_of_eq
      (Checked.vecToList3_length b).symm)
    exact Checked.isSome_of_eq_some hr
  · obtain ⟨r, hr, -⟩ := Checked.subC_some 4 _ _ (le_of_eq
      (Checked.vecToList4_length u).symm) (le_of_eq
      (Checked.vecToList4_length v).symm)
    exact Checked.isSome_of_eq_some hr
  · obtain ⟨r, hr, -⟩ := Checked.crossC_some _ _ (le_of_eq
      (Checked.vecToList3_length a).symm) (le_of_eq
      (Checked.vecToList3_length b).symm)
    exact Checked.isSome_of_eq_some hr
  · obtain ⟨r, hr⟩ := Checked.look_atC_some _ _ _
      (Checked.vecToList3_length eye) (Checked.vecToList3_length center)
      (Checked.vecToList3_length up)
    exact Checked.isSome_of_eq_some hr
  · obtain ⟨r, hr⟩ := Checked.mulC_some _ _ (Checked.matToLists_length m)
      (Checked.matToLists_cols m) (Checked.matToLists_length n)
      (Checked.matToLists_cols n)
    exact Checked.isSome_of_eq_some hr
  · obtain ⟨r, hr⟩ := Checked.mulVecC_some _ _ (Checked.matToLists_length m)
      (Checked.matToLists_cols m) (Checked.vecToList4_length v)
    exact Checked.isSome_of_eq_some hr
